import Mathlib

/-
Verification of the stateful core of the telegram-claude-code-bot repository:
the session store (session_manager.py), the repository cache
(src/utils/repo_manager.py) and the diff engine (src/utils/diff_helper.py).

Shallow embedding conventions:
- Python dicts are insertion-ordered association lists (`aset` updates an
  existing key in place, otherwise appends; `aerase` models `dict.pop`).
- `datetime.now()` is an explicit `now : Int` argument (seconds); the
  idle-expiry window `timedelta(hours=24)` is 86400 and the retention window
  `timedelta(days=7)` is 604800 seconds.
- `uuid.uuid4()[:8]` token generation is an explicit `token` argument
  (an oracle for the random source).
- The durable session file is the `stored` field of the state;
  `_save_sessions` replaces it with the current record list (the source
  swallows IO errors; the success path is modelled).
- Filesystem and subprocess effects of the repository cache are modelled by
  an explicit filesystem tree (`FSNode`) and an explicit process-result
  oracle (`GitEnv`); the list of issued git commands is returned as a trace.
-/

set_option autoImplicit false

namespace TgBot

/-! ## Association lists modelling Python dicts -/

/-- Dict lookup: first entry with the given key. -/
def alookup {α β : Type} [DecidableEq α] (l : List (α × β)) (k : α) : Option β :=
  match l with
  | [] => none
  | (k', v) :: rest => if k' = k then some v else alookup rest k

/-- Dict assignment `d[k] = v`: update in place if the key exists, else append
(Python dicts keep insertion order). -/
def aset {α β : Type} [DecidableEq α] (l : List (α × β)) (k : α) (v : β) : List (α × β) :=
  match l with
  | [] => [(k, v)]
  | (k', v') :: rest => if k' = k then (k, v) :: rest else (k', v') :: aset rest k v

/-- Dict removal `d.pop(k, None)`. -/
def aerase {α β : Type} [DecidableEq α] (l : List (α × β)) (k : α) : List (α × β) :=
  l.filter (fun p => !(p.1 = k : Bool))

/-! ## Character-level string primitives

The Python string operations are modelled directly on the character lists
underlying `String`, with structural recursion throughout, so that every
definition evaluates inside the kernel. -/

/-- Whether the second list is an initial segment of the first. -/
def charsStartWith : List Char → List Char → Bool
  | _, [] => true
  | [], _ :: _ => false
  | c :: cs, p :: ps => if c = p then charsStartWith cs ps else false

/-- Python `s.startswith(p)`. -/
def strStartsWith (s p : String) : Bool :=
  charsStartWith s.toList p.toList

/-- Python `s.endswith(p)`. -/
def strEndsWith (s p : String) : Bool :=
  charsStartWith s.toList.reverse p.toList.reverse

/-- Python `s[n:]`. -/
def strDrop (s : String) (n : Nat) : String :=
  ⟨s.toList.drop n⟩

/-- Python `s[:-n]` for `n` at most the length. -/
def strDropRight (s : String) (n : Nat) : String :=
  ⟨s.toList.take (s.toList.length - n)⟩

/-- Splitting on a single separator character, Python `s.split(sep)` /
`str.splitOn` style: the empty string yields `[""]`. -/
def splitOnCharAux (sep : Char) : List Char → List Char → List (List Char)
  | acc, [] => [acc.reverse]
  | acc, c :: rest =>
    if c = sep then acc.reverse :: splitOnCharAux sep [] rest
    else splitOnCharAux sep (c :: acc) rest

/-- Split a string on a separator character. -/
def splitOnChar (sep : Char) (s : String) : List String :=
  (splitOnCharAux sep [] s.toList).map (fun cs => ⟨cs⟩)

/-- Join with a separator, Python `sep.join(parts)`. -/
def joinWith (sep : String) : List String → String
  | [] => ""
  | [x] => x
  | x :: y :: rest => x ++ sep ++ joinWith sep (y :: rest)

/-- ASCII lowering of one character (`str.lower` on the inputs concerned). -/
def lowerChar (c : Char) : Char :=
  if 'A' ≤ c ∧ c ≤ 'Z' then Char.ofNat (c.toNat + 32) else c

/-! ## Session store (session_manager.py) -/

/-- Session record, mirroring the `Session` dataclass. -/
structure Session where
  token : String
  user_id : Nat
  user_name : String
  working_dir : String
  created_at : Int
  last_used : Int
  is_active : Bool
deriving DecidableEq

/-- State of a `SessionManager`: the `sessions` dict (token -> Session), the
`user_sessions` dict (user_id -> active token), the durable file contents
`stored`, and the configured default working directory. -/
structure SMState where
  sessions : List (String × Session)
  user_sessions : List (Nat × String)
  stored : List Session
  default_working_dir : String
deriving DecidableEq

/-- `_save_sessions`: synchronously rewrite the full record set to storage. -/
def SMState.save (st : SMState) : SMState :=
  { st with stored := st.sessions.map Prod.snd }

/-- `create_session`: build a session from the generated `token`, store it
under that token, point the user's active-token mapping at it, and save.
(The `Path(working_dir).mkdir` side effect is outside the model; the two
`datetime.now()` reads are a single `now`.) -/
def create_session (st : SMState) (user_id : Nat) (user_name : String)
    (working_dir : Option String) (token : String) (now : Int) : Session × SMState :=
  let wd := match working_dir with
    | none => st.default_working_dir
    | some "" => st.default_working_dir
    | some w => w
  let session : Session :=
    { token := token, user_id := user_id, user_name := user_name, working_dir := wd,
      created_at := now, last_used := now, is_active := true }
  let st := { st with
    sessions := aset st.sessions token session,
    user_sessions := aset st.user_sessions user_id token }
  (session, st.save)

/-- `get_session`: lookup by token. -/
def get_session (st : SMState) (token : String) : Option Session :=
  alookup st.sessions token

/-- `get_user_active_session`: follow the user's active-token mapping; clear a
stale mapping (missing or inactive record) as a side effect. -/
def get_user_active_session (st : SMState) (user_id : Nat) : Option Session × SMState :=
  match alookup st.user_sessions user_id with
  | none => (none, st)
  | some token =>
    match alookup st.sessions token with
    | some s =>
      if s.is_active then (some s, st)
      else (none, { st with user_sessions := aerase st.user_sessions user_id })
    | none => (none, { st with user_sessions := aerase st.user_sessions user_id })

/-- `validate_session`: the session must exist, be active, be owned by
`user_id`, and have been used within 24 hours; an expired session is marked
inactive in memory (note: without a save) and `None` is returned. -/
def validate_session (st : SMState) (token : String) (user_id : Nat) (now : Int) :
    Option Session × SMState :=
  match alookup st.sessions token with
  | none => (none, st)
  | some s =>
    if s.is_active = true ∧ s.user_id = user_id then
      if now - s.last_used < 86400 then (some s, st)
      else (none, { st with sessions := aset st.sessions token { s with is_active := false } })
    else (none, st)

/-- `update_session`: refresh `last_used` and save (no-op for an unknown token). -/
def update_session (st : SMState) (token : String) (now : Int) : SMState :=
  match alookup st.sessions token with
  | none => st
  | some s =>
    SMState.save { st with sessions := aset st.sessions token { s with last_used := now } }

/-- `end_session`: mark the record inactive, drop the owner's active-token
mapping (whatever token it pointed to), and save. -/
def end_session (st : SMState) (token : String) : Bool × SMState :=
  match alookup st.sessions token with
  | none => (false, st)
  | some s =>
    (true, SMState.save { st with
      sessions := aset st.sessions token { s with is_active := false },
      user_sessions := aerase st.user_sessions s.user_id })

/-- `end_user_session`: end the session the user's mapping points at. -/
def end_user_session (st : SMState) (user_id : Nat) : Bool × SMState :=
  match alookup st.user_sessions user_id with
  | none => (false, st)
  | some token => end_session st token

/-- `_cleanup_old_sessions`: collect the tokens of sessions that are inactive
and created before the 7-day cutoff, delete them, and save if any were
removed. -/
def cleanup_old_sessions (st : SMState) (now : Int) : SMState :=
  let cutoff := now - 604800
  let to_remove := (st.sessions.filter
    (fun p => !p.2.is_active && decide (p.2.created_at < cutoff))).map Prod.fst
  let st' := { st with sessions := to_remove.foldl (fun acc t => aerase acc t) st.sessions }
  if to_remove ≠ [] then st'.save else st'

/-- `_load_sessions`: rebuild the token map and, for active records, the
user -> token map from the records read from the file (the file keeps holding
exactly those records until the next save). -/
def load_sessions (records : List Session) (default_wd : String) : SMState :=
  records.foldl
    (fun st s =>
      { st with
        sessions := aset st.sessions s.token s,
        user_sessions := if s.is_active then aset st.user_sessions s.user_id s.token
                         else st.user_sessions })
    { sessions := [], user_sessions := [], stored := records, default_working_dir := default_wd }

/-- `SessionManager.__init__` on an existing file: load, then clean up. -/
def init_state (records : List Session) (default_wd : String) (now : Int) : SMState :=
  cleanup_old_sessions (load_sessions records default_wd) now

/-- Loop of `import_sessions`: insert the records whose token is not already
present (active ones also update the user mapping) and count them. -/
def import_go (st : SMState) (records : List Session) : Nat × SMState :=
  records.foldl
    (fun (acc : Nat × SMState) s =>
      match alookup acc.2.sessions s.token with
      | some _ => acc
      | none =>
        (acc.1 + 1, { acc.2 with
          sessions := aset acc.2.sessions s.token s,
          user_sessions := if s.is_active then aset acc.2.user_sessions s.user_id s.token
                           else acc.2.user_sessions }))
    (0, st)

/-- `import_sessions` proper: the loop above, then a save when at least one
record was added. -/
def import_sessions (st : SMState) (records : List Session) : Nat × SMState :=
  let r := import_go st records
  if r.1 > 0 then (r.1, r.2.save) else r

/-! ## Repository cache (src/utils/repo_manager.py) -/

/-- Match of `r'https?://github\.com/([^/]+)/([^/]+)/?$'` under `re.match`:
the scheme part literally, then owner and repo as nonempty slash-free
segments, with an optional trailing slash. -/
def matchFullUrl (u : String) : Option (String × String) :=
  let rest? :=
    if strStartsWith u "https://github.com/" then some (strDrop u 19)
    else if strStartsWith u "http://github.com/" then some (strDrop u 18)
    else none
  match rest? with
  | none => none
  | some r =>
    match splitOnChar '/' r with
    | [o, n] => if o ≠ "" ∧ n ≠ "" then some (o, n) else none
    | [o, n, ""] => if o ≠ "" ∧ n ≠ "" then some (o, n) else none
    | _ => none

/-- Match of `r'([^/]+)/([^/]+)$'` under `re.match`: exactly one slash,
separating two nonempty slash-free segments. -/
def matchOwnerRepo (u : String) : Option (String × String) :=
  match splitOnChar '/' u with
  | [o, n] => if o ≠ "" ∧ n ≠ "" then some (o, n) else none
  | _ => none

/-- Python `url.rstrip('/')`: drop every trailing slash. -/
def rstripSlash (s : String) : String :=
  ⟨(s.toList.reverse.dropWhile (fun c => c = '/')).reverse⟩

/-- `validate_github_url`: strip trailing slashes and a `.git` suffix, then
try the full-URL pattern, then the bare `owner/repo` pattern; on a match
return the normalized `https://github.com/owner/repo` form. -/
def validate_github_url (url : String) : Bool × String :=
  let url := rstripSlash url
  let url := if strEndsWith url ".git" then strDropRight url 4 else url
  match matchFullUrl url with
  | some (o, n) => (true, "https://github.com/" ++ o ++ "/" ++ n)
  | none =>
    match matchOwnerRepo url with
    | some (o, n) => (true, "https://github.com/" ++ o ++ "/" ++ n)
    | none => (false, "Invalid GitHub URL format. Expected: https://github.com/owner/repo")

/-- Filesystem tree, as resolved by the OS: directories map child names to
nodes, files carry `st_size`. -/
inductive FSNode where
  | file (size : Nat)
  | dir (children : List (String × FSNode))

/-- Components of a relative path as `pathlib.PurePosixPath` keeps them:
empty and `.` components dropped, `..` kept verbatim. -/
def pathComponents (s : String) : List String :=
  (splitOnChar '/' s).filter (fun c => !(c = "" : Bool) && !(c = "." : Bool))

/-- Physical path resolution performed by the OS on `exists`/`iterdir`: walk
the components, letting `..` pop the last one (saturating at the root). -/
def resolveComps (comps : List String) : List String :=
  comps.foldl (fun acc c => if c = ".." then acc.dropLast else acc ++ [c]) []

/-- Look a resolved path up in the filesystem tree. -/
def findNode (fs : FSNode) : List String → Option FSNode
  | [] => some fs
  | c :: rest =>
    match fs with
    | .file _ => none
    | .dir children =>
      match alookup children c with
      | none => none
      | some child => findNode child rest

/-- `Path(user_repo['path']) / relative_path`, as a component list:
the textual join, `..` components not yet resolved. -/
def targetComps (repo_path : List String) (relative_path : String) : List String :=
  if relative_path = "" then repo_path else repo_path ++ pathComponents relative_path

/-- `get_user_repo_dir`: `<base>/<user_id>/<owner>/<repo>` under the `repos`
base directory, as components. -/
def get_user_repo_dir (user_id : Nat) (owner repo : String) : List String :=
  ["repos", toString user_id, owner, repo]

/-- One entry of `list_files_in_repo`'s result. `path` is
`str(item.relative_to(repo_path))`; `extension` is `item.suffix` for files
and `None` for directories. (The derived `language` field is not modelled;
no claim depends on it.) -/
structure FileInfo where
  name : String
  path : String
  is_dir : Bool
  size : Nat
  extension : Option String
deriving DecidableEq

/-- `pathlib.PurePath.suffix` of a file name: from the last dot, provided it
is neither the first nor past the last character. -/
def pathSuffix (name : String) : String :=
  let cs := name.toList
  match ((cs.enum.filter (fun p => p.2 = '.')).map Prod.fst).getLast? with
  | none => ""
  | some i => if 0 < i ∧ i < cs.length - 1 then ⟨cs.drop i⟩ else ""

/-- Code-point lexicographic comparison on character lists. -/
def charListLE : List Char → List Char → Bool
  | [], _ => true
  | _ :: _, [] => false
  | a :: xs, b :: ys => if a = b then charListLE xs ys else decide (a.val < b.val)

/-- Key order of `files.sort(key=lambda x: (not x['is_dir'], x['name'].lower()))`:
directories first, then case-insensitive name order (code-point comparison on
the lowercased name). -/
def fileLE (a b : FileInfo) : Bool :=
  if a.is_dir = b.is_dir then
    charListLE (a.name.toList.map lowerChar) (b.name.toList.map lowerChar)
  else a.is_dir

/-- Stable insertion sort (Python `list.sort` is stable): each element is
placed after every already-placed element that is less or equal. -/
def insertLE (le : FileInfo → FileInfo → Bool) (x : FileInfo) : List FileInfo → List FileInfo
  | [] => [x]
  | y :: ys => if le y x then y :: insertLE le x ys else x :: y :: ys

/-- Sort a listing the way the source sorts it. -/
def sortFiles (l : List FileInfo) : List FileInfo :=
  l.foldl (fun acc x => insertLE fileLE x acc) []

/-- `list_files_in_repo`: `None` without an active repository; empty list for
a non-existent or non-directory target; otherwise the non-hidden entries of
the directory the OS resolves the (unchecked) textual join to, with paths
reported relative to the scoped root textually. -/
def list_files_in_repo (fs : FSNode) (user_repos : List (Nat × List String))
    (user_id : Nat) (relative_path : String) : Option (List FileInfo) :=
  match alookup user_repos user_id with
  | none => none
  | some repo_path =>
    let target := targetComps repo_path relative_path
    match findNode fs (resolveComps target) with
    | none => some []
    | some (.file _) => some []
    | some (.dir children) =>
      let rel := if relative_path = "" then [] else pathComponents relative_path
      let files := children.filterMap (fun child =>
        if strStartsWith child.1 "." then none
        else
          let relItem := joinWith "/" (rel ++ [child.1])
          match child.2 with
          | .file sz => some ⟨child.1, relItem, false, sz, some (pathSuffix child.1)⟩
          | .dir _ => some ⟨child.1, relItem, true, 0, none⟩)
      some (sortFiles files)

/-- Result of one `subprocess.run` call: an exit code, or a
`subprocess.TimeoutExpired`. -/
inductive ProcResult where
  | exit (code : Nat)
  | timeout
deriving DecidableEq

/-- Oracle for the environment `clone_or_update_repo` interacts with: whether
`git --version` succeeds, whether the scoped path exists, and the outcome
(and stripped stderr) of each git invocation the code may issue. -/
structure GitEnv where
  git_available : Bool
  path_exists : Bool
  pull_main : ProcResult
  pull_main_err : String
  pull_master : ProcResult
  pull_master_err : String
  clone_result : ProcResult
  clone_err : String
deriving DecidableEq

/-- `_update_repo`, plus a trace of the git commands issued: pull `origin
main`; on a non-zero exit, pull `origin master`; a `TimeoutExpired` from
either call is caught by the surrounding handler without further attempts. -/
def update_repo (env : GitEnv) : (Bool × String) × List String :=
  match env.pull_main with
  | .timeout => ((false, "Update operation timed out (30s)"), ["git pull origin main"])
  | .exit 0 => ((true, "Repository updated successfully"), ["git pull origin main"])
  | .exit _ =>
    match env.pull_master with
    | .timeout => ((false, "Update operation timed out (30s)"),
        ["git pull origin main", "git pull origin master"])
    | .exit 0 => ((true, "Repository updated successfully (master branch)"),
        ["git pull origin main", "git pull origin master"])
    | .exit _ => ((false, env.pull_master_err),
        ["git pull origin main", "git pull origin master"])

/-- `_clone_repo`, plus the trace of the single git command issued. -/
def clone_repo (env : GitEnv) : (Bool × String) × List String :=
  match env.clone_result with
  | .timeout => ((false, "Clone operation timed out (60s)"), ["git clone"])
  | .exit 0 => ((true, "Repository cloned successfully"), ["git clone"])
  | .exit _ => ((false, env.clone_err), ["git clone"])

/-- Successful or failed outcome of `clone_or_update_repo` (the result dict's
`action`/`error_type` discriminants and claim-relevant fields; the index
metadata of `_index_repo` is not modelled). -/
inductive CloneOutcome where
  | ok (action : String) (owner : String) (repo : String) (url : String) (path : String)
  | err (error_type : String) (error : String)
deriving DecidableEq

/-- The scoped path as the string the result dict reports. -/
def userRepoDirStr (user_id : Nat) (owner repo : String) : String :=
  joinWith "/" (get_user_repo_dir user_id owner repo)

/-- `clone_or_update_repo`, with the trace of git commands issued: validate
and normalize the URL, re-extract owner and repo, require git, then update if
the scoped path exists (never cloning) or clone if it is absent. -/
def clone_or_update_repo (env : GitEnv) (user_id : Nat) (github_url : String) :
    CloneOutcome × List String :=
  match validate_github_url github_url with
  | (false, msg) => (.err "invalid_url" msg, [])
  | (true, normalized) =>
    match matchFullUrl normalized with
    | none => (.err "parse_error" "Could not extract owner/repo from URL", [])
    | some (owner, repo_name) =>
      if !env.git_available then (.err "git_missing" "Git is not installed or not available", [])
      else if env.path_exists then
        match update_repo env with
        | ((true, _), tr) =>
          (.ok "updated" owner repo_name normalized (userRepoDirStr user_id owner repo_name), tr)
        | ((false, msg), tr) =>
          (.err "update_error" ("Failed to update repository: " ++ msg), tr)
      else
        match clone_repo env with
        | ((true, _), tr) =>
          (.ok "cloned" owner repo_name normalized (userRepoDirStr user_id owner repo_name), tr)
        | ((false, msg), tr) =>
          (.err "clone_error" ("Failed to clone repository: " ++ msg), tr)

/-! ## Diff engine (src/utils/diff_helper.py, over Python difflib)

The `difflib.unified_diff` pipeline is embedded on line lists:
`find_longest_match` (without junk: its dynamic scan returns the largest
matching block, ties broken by lowest start in `a` then in `b`; the autojunk
heuristic, which only concerns inputs of 200 lines or more, is not
modelled), the recursive block collection with adjacent-block merging of
`get_matching_blocks`, `get_opcodes`, `get_grouped_opcodes`, and the
unified-diff line generator with `lineterm=''` as the source calls it. -/

/-- Length of the common prefix of two line lists. -/
def commonPrefixLen : List String → List String → Nat
  | a :: as', b :: bs => if a = b then commonPrefixLen as' bs + 1 else 0
  | _, _ => 0

/-- Length of the matching run starting at `(i, j)` inside the window
`[..ahi) × [..bhi)`. -/
def matchLen (a b : List String) (ahi bhi i j : Nat) : Nat :=
  commonPrefixLen ((a.take ahi).drop i) ((b.take bhi).drop j)

/-- One candidate step of the longest-match scan: a strictly larger run
replaces the best found so far (so the first-scanned maximum is kept). -/
def flmStep (a b : List String) (ahi bhi : Nat) (best : Nat × Nat × Nat) (ij : Nat × Nat) :
    Nat × Nat × Nat :=
  let k := matchLen a b ahi bhi ij.1 ij.2
  if best.2.2 < k then (ij.1, ij.2, k) else best

/-- `find_longest_match` on the window `[alo..ahi) × [blo..bhi)`: the largest
matching block, earliest in `a` then in `b` on ties, `(alo, blo, 0)` when
nothing matches. -/
def findLongestMatch (a b : List String) (alo ahi blo bhi : Nat) : Nat × Nat × Nat :=
  ((List.range' alo (ahi - alo)).flatMap
      (fun i => (List.range' blo (bhi - blo)).map (fun j => (i, j)))).foldl
    (flmStep a b ahi bhi) (alo, blo, 0)

/-- Recursive block collection of `get_matching_blocks`, in sorted order
(left window, the block, right window). The fuel is at least the window
perimeter plus one, which the top-level caller supplies. -/
def matchingBlocksAux (a b : List String) : Nat → Nat → Nat → Nat → Nat → List (Nat × Nat × Nat)
  | 0, _, _, _, _ => []
  | fuel + 1, alo, ahi, blo, bhi =>
    let r := findLongestMatch a b alo ahi blo bhi
    let i := r.1
    let j := r.2.1
    let k := r.2.2
    if k = 0 then []
    else
      (if alo < i ∧ blo < j then matchingBlocksAux a b fuel alo i blo j else []) ++
      ((i, j, k) ::
        (if i + k < ahi ∧ j + k < bhi then matchingBlocksAux a b fuel (i + k) ahi (j + k) bhi
         else []))

/-- Adjacent-block merging step of `get_matching_blocks`. -/
def mergeStep (st : (Nat × Nat × Nat) × List (Nat × Nat × Nat)) (blk : Nat × Nat × Nat) :
    (Nat × Nat × Nat) × List (Nat × Nat × Nat) :=
  let i1 := st.1.1
  let j1 := st.1.2.1
  let k1 := st.1.2.2
  if i1 + k1 = blk.1 ∧ j1 + k1 = blk.2.1 then ((i1, j1, k1 + blk.2.2), st.2)
  else (blk, if k1 ≠ 0 then st.2 ++ [(i1, j1, k1)] else st.2)

/-- `get_matching_blocks`: collected blocks, adjacent ones merged, with the
terminal `(len(a), len(b), 0)` sentinel block. -/
def get_matching_blocks (a b : List String) : List (Nat × Nat × Nat) :=
  let la := a.length
  let lb := b.length
  let blocks := matchingBlocksAux a b (la + lb + 1) 0 la 0 lb
  let fin := blocks.foldl mergeStep ((0, 0, 0), [])
  (if fin.1.2.2 ≠ 0 then fin.2 ++ [fin.1] else fin.2) ++ [(la, lb, 0)]

/-- Opcode tags of `SequenceMatcher.get_opcodes`. -/
inductive Tag where
  | replace | delete | insert | equal
deriving DecidableEq

/-- One opcode `(tag, i1, i2, j1, j2)`. -/
structure Opcode where
  tag : Tag
  i1 : Nat
  i2 : Nat
  j1 : Nat
  j2 : Nat
deriving DecidableEq

/-- One step of `get_opcodes`: emit the replace/delete/insert opcode for the
gap before the block, then the equal opcode for the block itself. -/
def opcodeStep (st : Nat × Nat × List Opcode) (blk : Nat × Nat × Nat) : Nat × Nat × List Opcode :=
  let i := st.1
  let j := st.2.1
  let answer := st.2.2
  let ai := blk.1
  let bj := blk.2.1
  let size := blk.2.2
  let answer :=
    if i < ai ∧ j < bj then answer ++ [⟨.replace, i, ai, j, bj⟩]
    else if i < ai then answer ++ [⟨.delete, i, ai, j, bj⟩]
    else if j < bj then answer ++ [⟨.insert, i, ai, j, bj⟩]
    else answer
  let answer := if size ≠ 0 then answer ++ [⟨.equal, ai, ai + size, bj, bj + size⟩] else answer
  (ai + size, bj + size, answer)

/-- `get_opcodes`. -/
def get_opcodes (a b : List String) : List Opcode :=
  ((get_matching_blocks a b).foldl opcodeStep (0, 0, [])).2.2

/-- Shrink a leading equal opcode to `n` lines of context. -/
def trimHead (n : Nat) (codes : List Opcode) : List Opcode :=
  match codes with
  | [] => []
  | c :: rest =>
    if c.tag = .equal then
      { c with i1 := max c.i1 (c.i2 - n), j1 := max c.j1 (c.j2 - n) } :: rest
    else c :: rest

/-- Shrink a trailing equal opcode to `n` lines of context. -/
def trimLast (n : Nat) (codes : List Opcode) : List Opcode :=
  match codes.getLast? with
  | none => codes
  | some c =>
    if c.tag = .equal then
      codes.dropLast ++ [{ c with i2 := min c.i2 (c.i1 + n), j2 := min c.j2 (c.j1 + n) }]
    else codes

/-- Grouping step of `get_grouped_opcodes`: a large equal run ends the
current group (keeping `n` lines of trailing context) and starts the next
one (keeping `n` lines of leading context). -/
def groupStep (n : Nat) (st : List (List Opcode) × List Opcode) (c : Opcode) :
    List (List Opcode) × List Opcode :=
  if c.tag = .equal ∧ n + n < c.i2 - c.i1 then
    (st.1 ++ [st.2 ++ [{ c with i2 := min c.i2 (c.i1 + n), j2 := min c.j2 (c.j1 + n) }]],
     [{ c with i1 := max c.i1 (c.i2 - n), j1 := max c.j1 (c.j2 - n) }])
  else (st.1, st.2 ++ [c])

/-- `get_grouped_opcodes(n)`: a trailing group that is a single equal opcode
is dropped, so identical sequences produce no group at all. -/
def get_grouped_opcodes (a b : List String) (n : Nat) : List (List Opcode) :=
  let codes := get_opcodes a b
  let codes := if codes = [] then [⟨.equal, 0, 1, 0, 1⟩] else codes
  let codes := trimLast n (trimHead n codes)
  let fin := codes.foldl (groupStep n) ([], [])
  if fin.2 ≠ [] ∧ ¬(fin.2.length = 1 ∧ (fin.2.head?.map Opcode.tag) = some .equal) then
    fin.1 ++ [fin.2]
  else fin.1

/-- `_format_range_unified`. -/
def format_range_unified (start stop : Nat) : String :=
  let beginning := start + 1
  let length := stop - start
  if length = 1 then toString beginning
  else toString (if length = 0 then beginning - 1 else beginning) ++ "," ++ toString length

/-- Python slice `xs[i1:i2]`. -/
def slice (xs : List String) (i1 i2 : Nat) : List String :=
  (xs.take i2).drop i1

/-- The `@@`-headed hunk emitted for one group of opcodes. -/
def hunk_lines (a b : List String) (group : List Opcode) : List String :=
  match group with
  | [] => []
  | first :: rest =>
    let last := (first :: rest).getLast (List.cons_ne_nil first rest)
    ("@@ -" ++ format_range_unified first.i1 last.i2 ++
     " +" ++ format_range_unified first.j1 last.j2 ++ " @@") ::
    (first :: rest).flatMap (fun c =>
      match c.tag with
      | .equal => (slice a c.i1 c.i2).map (fun l => " " ++ l)
      | .replace => (slice a c.i1 c.i2).map (fun l => "-" ++ l) ++
                    (slice b c.j1 c.j2).map (fun l => "+" ++ l)
      | .delete => (slice a c.i1 c.i2).map (fun l => "-" ++ l)
      | .insert => (slice b c.j1 c.j2).map (fun l => "+" ++ l))

/-- `difflib.unified_diff(a, b, fromfile, tofile, lineterm='', n)`: the two
header lines before the first group only, then the hunks. -/
def unified_diff (a b : List String) (fromfile tofile : String) (n : Nat) : List String :=
  match get_grouped_opcodes a b n with
  | [] => []
  | g :: gs =>
    ("--- " ++ fromfile) :: ("+++ " ++ tofile) :: (g :: gs).flatMap (hunk_lines a b)

/-- Python `str.splitlines(keepends=True)` for LF, CRLF and CR breaks (the
other, exotic Python line breaks do not occur in the modelled inputs). -/
def splitKeepAux : List Char → List Char → List (List Char)
  | acc, [] => if acc = [] then [] else [acc.reverse]
  | acc, '\r' :: '\n' :: rest => (acc.reverse ++ ['\r', '\n']) :: splitKeepAux [] rest
  | acc, '\r' :: rest => (acc.reverse ++ ['\r']) :: splitKeepAux [] rest
  | acc, '\n' :: rest => (acc.reverse ++ ['\n']) :: splitKeepAux [] rest
  | acc, c :: rest => splitKeepAux (c :: acc) rest

/-- `content.splitlines(keepends=True)`. -/
def splitLinesKeepEnds (s : String) : List String :=
  (splitKeepAux [] s.toList).map (fun cs => ⟨cs⟩)

/-- One single-character `str.replace` pass of `_escape_markdown`: the
character is prefixed with a backslash wherever it occurs. -/
def replaceEscaping (target : Char) (cs : List Char) : List Char :=
  cs.flatMap (fun c => if c = target then ['\\', target] else [c])

/-- The special-character list of `_escape_markdown`. -/
def specialChars : List Char :=
  ['_', '*', '[', ']', '(', ')', '~', '\x60', '>', '#', '=', '|', '\x7b', '\x7d', '.', '!']

/-- `DiffHelper._escape_markdown` proper: one `text.replace(char, "\\" + char)`
pass per special character (the `-`/`+` guard in the source is vacuous since
neither is in the list). -/
def escape_markdown (text : String) : String :=
  ⟨specialChars.foldl
    (fun t c => if c = '-' ∨ c = '+' then t else replaceEscaping c t) text.toList⟩

/-- `DiffHelper._format_for_telegram`: style headers and hunk markers, keep
the leading `-`/`+` markers unescaped, and wrap in a fenced diff block. -/
def format_for_telegram (diff_lines : List String) : String :=
  let parts := diff_lines.map (fun line =>
    let e := escape_markdown line
    if strStartsWith line "---" ∨ strStartsWith line "+++" then "**" ++ e ++ "**"
    else if strStartsWith line "@@" then "*" ++ e ++ "*"
    else if strStartsWith line "-" then "-" ++ strDrop e 1
    else if strStartsWith line "+" then "+" ++ strDrop e 1
    else " " ++ e)
  "```diff\n" ++ joinWith "\n" parts ++ "\n```"

/-- The sentinel returned instead of an empty diff. -/
def noChangesSentinel : String := "✅ No changes detected - files are identical"

/-- `DiffHelper.create_unified_diff` (the source always passes the default
`context_lines=3`; the parameter is kept explicit). -/
def create_unified_diff (old_content new_content old_file new_file : String)
    (context_lines : Nat) : String :=
  let old_lines := splitLinesKeepEnds old_content
  let new_lines := splitLinesKeepEnds new_content
  let diff_lines := unified_diff old_lines new_lines old_file new_file context_lines
  if diff_lines = [] then noChangesSentinel
  else format_for_telegram diff_lines

/-- Lines of a rendered diff that carry the added-line marker: a leading `+`
that is not a `+++` header. -/
def addedLines (s : String) : List String :=
  (splitOnChar '\n' s).filter (fun l => strStartsWith l "+" && !(strStartsWith l "+++"))

/-! ## Concrete fixtures used by the counterexamples and witnesses -/

/-- A fresh store with default working directory `"d"`. -/
def emptyState : SMState := ⟨[], [], [], "d"⟩

/-- An active session last used at time 0. -/
def c5Session : Session := ⟨"t", 1, "a", "d", 0, 0, true⟩

/-- A store in sync with its durable copy, holding `c5Session`. -/
def c5State : SMState := ⟨[("t", c5Session)], [(1, "t")], [c5Session], "d"⟩

/-- First session of user 7. -/
def c10s1 : Session := ⟨"t1", 7, "u", "d", 0, 0, true⟩

/-- Second session of user 7, the one the active mapping points at. -/
def c10s2 : Session := ⟨"t2", 7, "u", "d", 1, 1, true⟩

/-- A store where user 7 has two active records and the mapping targets `"t2"`. -/
def c10State : SMState := ⟨[("t1", c10s1), ("t2", c10s2)], [(7, "t2")], [c10s1, c10s2], "d"⟩

/-- A session inactive and created 8 days before time 0. -/
def c8rec8 : Session := ⟨"t8", 1, "u", "d", -691200, -691200, false⟩

/-- A session inactive and created 6 days before time 0. -/
def c8rec6 : Session := ⟨"t6", 1, "u", "d", -518400, -518400, false⟩

/-- A filesystem whose root holds the repository mirror base and an `/etc`
directory outside it. -/
def c1fs : FSNode :=
  .dir [("repos", .dir [("1", .dir [("o", .dir [("r", .dir [("f.txt", .file 3)])])])]),
        ("etc", .dir [("passwd", .file 100)])]

/-- User 1 has the mirror `repos/1/o/r` as the active repository. -/
def c1repos : List (Nat × List String) := [(1, ["repos", "1", "o", "r"])]

/-- Environment where the scoped path exists, `git pull origin main` times
out, and a `git pull origin master` would have succeeded. -/
def c6envTimeout : GitEnv := ⟨true, true, .timeout, "", .exit 0, "", .exit 0, ""⟩

/-! ## Association-list lemmas -/

theorem alookup_aset_self {α β : Type} [DecidableEq α] (l : List (α × β)) (k : α) (v : β) :
    alookup (aset l k v) k = some v := by
  induction l with
  | nil => simp [aset, alookup]
  | cons p rest ih =>
    obtain ⟨k', v'⟩ := p
    by_cases h : k' = k <;> simp [aset, alookup, h, ih]

theorem alookup_aset_ne {α β : Type} [DecidableEq α] (l : List (α × β)) (k k' : α) (v : β)
    (h : k' ≠ k) : alookup (aset l k v) k' = alookup l k' := by
  have h' : ¬(k = k') := fun hh => h hh.symm
  induction l with
  | nil => simp [aset, alookup, h']
  | cons p rest ih =>
    obtain ⟨k₀, v₀⟩ := p
    by_cases h0 : k₀ = k
    · subst h0
      simp [aset, alookup, h']
    · simp only [aset, if_neg h0, alookup]
      by_cases h1 : k₀ = k' <;> simp [h1, ih]

theorem alookup_aerase_self {α β : Type} [DecidableEq α] (l : List (α × β)) (k : α) :
    alookup (aerase l k) k = none := by
  induction l with
  | nil => simp [aerase, alookup]
  | cons p rest ih =>
    obtain ⟨k', v'⟩ := p
    by_cases h : k' = k
    · simpa [aerase, alookup, h] using ih
    · simpa [aerase, alookup, h] using ih

theorem alookup_isNone_iff {α β : Type} [DecidableEq α] (l : List (α × β)) (k : α) :
    (alookup l k).isNone = true ↔ k ∉ l.map Prod.fst := by
  induction l with
  | nil => simp [alookup]
  | cons p rest ih =>
    obtain ⟨k', v'⟩ := p
    by_cases h : k' = k
    · subst h
      simp [alookup]
    · have h' : ¬(k = k') := fun hh => h hh.symm
      simp [alookup, h, h', ih]

theorem map_fst_aset {α β : Type} [DecidableEq α] (l : List (α × β)) (k : α) (v : β) :
    (aset l k v).map Prod.fst
      = if (alookup l k).isNone then l.map Prod.fst ++ [k] else l.map Prod.fst := by
  induction l with
  | nil => simp [aset, alookup]
  | cons p rest ih =>
    obtain ⟨k', v'⟩ := p
    by_cases h : k' = k
    · subst h
      simp [aset, alookup]
    · simp only [aset, if_neg h, alookup, List.map_cons, ih]
      by_cases h1 : (alookup rest k).isNone <;> simp [h, h1]

theorem foldl_aerase_eq_filter {α β : Type} [DecidableEq α] (ks : List α) (l : List (α × β)) :
    ks.foldl (fun acc t => aerase acc t) l
      = l.filter (fun p => !(decide (p.1 ∈ ks))) := by
  induction ks generalizing l with
  | nil => simp
  | cons k ks ih =>
    rw [List.foldl_cons, ih, aerase, List.filter_filter]
    apply List.filter_congr
    intro p _
    by_cases h1 : p.1 = k <;> by_cases h2 : p.1 ∈ ks <;> simp [h1, h2]

theorem nodup_map_fst_aset {α β : Type} [DecidableEq α] (l : List (α × β)) (k : α) (v : β)
    (h : (l.map Prod.fst).Nodup) : ((aset l k v).map Prod.fst).Nodup := by
  rw [map_fst_aset]
  by_cases h0 : (alookup l k).isNone
  · have hk : k ∉ l.map Prod.fst := (alookup_isNone_iff l k).mp h0
    simp [h0, List.nodup_append, h, hk]
  · simp [h0, h]

/-! ## Session-store lemmas -/

theorem load_sessions_go_nodup (records : List Session) (st : SMState)
    (h : (st.sessions.map Prod.fst).Nodup) :
    ((records.foldl
        (fun st s =>
          { st with
            sessions := aset st.sessions s.token s,
            user_sessions := if s.is_active then aset st.user_sessions s.user_id s.token
                             else st.user_sessions }) st).sessions.map Prod.fst).Nodup := by
  induction records generalizing st with
  | nil => simpa using h
  | cons r rs ih =>
    exact ih _ (nodup_map_fst_aset _ _ _ h)

theorem load_sessions_nodup (records : List Session) (dwd : String) :
    (((load_sessions records dwd).sessions).map Prod.fst).Nodup := by
  exact load_sessions_go_nodup records _ (by simp)

theorem cleanup_sessions_of_nodup (st : SMState) (now : Int)
    (h : (st.sessions.map Prod.fst).Nodup) :
    (cleanup_old_sessions st now).sessions
      = st.sessions.filter
          (fun p => !(!p.2.is_active && decide (p.2.created_at < now - 604800))) := by
  have hinj := List.inj_on_of_nodup_map h
  have key : ((st.sessions.filter
        (fun p => !p.2.is_active && decide (p.2.created_at < now - 604800))).map
          Prod.fst).foldl (fun acc t => aerase acc t) st.sessions
      = st.sessions.filter
          (fun p => !(!p.2.is_active && decide (p.2.created_at < now - 604800))) := by
    rw [foldl_aerase_eq_filter]
    apply List.filter_congr
    intro p hp
    by_cases hbad : (!p.2.is_active && decide (p.2.created_at < now - 604800)) = true
    · have : p.1 ∈ (st.sessions.filter
          (fun p => !p.2.is_active && decide (p.2.created_at < now - 604800))).map Prod.fst := by
        exact List.mem_map_of_mem Prod.fst (List.mem_filter.mpr ⟨hp, hbad⟩)
      simp [this, hbad]
    · have : p.1 ∉ (st.sessions.filter
          (fun p => !p.2.is_active && decide (p.2.created_at < now - 604800))).map Prod.fst := by
        intro hmem
        obtain ⟨q, hq, hfst⟩ := List.mem_map.mp hmem
        obtain ⟨hql, hqbad⟩ := List.mem_filter.mp hq
        have : q = p := hinj hql hp hfst
        subst this
        exact hbad hqbad
      simp [this, hbad]
  unfold cleanup_old_sessions
  by_cases hrem : ((st.sessions.filter
      (fun p => !p.2.is_active && decide (p.2.created_at < now - 604800))).map Prod.fst) = []
  · simp only [hrem, ne_eq, not_true_eq_false, if_false, List.foldl_nil]
    rw [← key, hrem]
    simp
  · simp only [ne_eq, hrem, not_false_eq_true, if_true, SMState.save]
    exact key

/-! ## Claim C2 -/

/-- Counterexample to claim C2: when the random source repeats the token
`"abc"`, the second `create_session` overwrites the first user's record
instead of regenerating — only user 2's record remains in the store. -/
theorem claim_C2_counterexample :
    ((create_session (create_session emptyState 1 "alice" none "abc" 0).2
        2 "bob" none "abc" 5).2).sessions
      = [("abc", ⟨"abc", 2, "bob", "d", 5, 5, true⟩)] := by
  decide

/-- Claim C2 (amended): `create_session` stores the new session under the
freshly generated token unconditionally — the token's entry afterwards is
exactly the new session, and the token set gains the token precisely when it
was not already present, so on a collision the existing record is
overwritten rather than the token regenerated. -/
theorem claim_C2 (st : SMState) (uid : Nat) (uname : String) (wd : Option String)
    (tok : String) (now : Int) :
    alookup (create_session st uid uname wd tok now).2.sessions tok
        = some (create_session st uid uname wd tok now).1
  ∧ (create_session st uid uname wd tok now).1.token = tok
  ∧ (create_session st uid uname wd tok now).2.sessions.map Prod.fst
      = (if (alookup st.sessions tok).isNone then st.sessions.map Prod.fst ++ [tok]
         else st.sessions.map Prod.fst) := by
  refine ⟨?_, ?_, ?_⟩
  · simp [create_session, SMState.save, alookup_aset_self]
  · simp [create_session, SMState.save]
  · simp [create_session, SMState.save, map_fst_aset]

/-! ## Claim C3 -/

/-- Claim C3: `validate_session` returns the session if and only if the
token exists, the record is active, is owned by the caller, and was last
used strictly less than 24 hours before `now`; when the record matches but
the window has elapsed, it is marked inactive as a side effect and `None`
is returned. -/
theorem claim_C3 (st : SMState) (tok : String) (uid : Nat) (now : Int) :
    (∀ s, (validate_session st tok uid now).1 = some s ↔
        (alookup st.sessions tok = some s ∧ s.is_active = true ∧ s.user_id = uid ∧
         now - s.last_used < 86400))
  ∧ (∀ s, alookup st.sessions tok = some s → s.is_active = true → s.user_id = uid →
        86400 ≤ now - s.last_used →
        (validate_session st tok uid now).1 = none ∧
        alookup (validate_session st tok uid now).2.sessions tok
          = some { s with is_active := false }) := by
  constructor
  · intro s
    constructor
    · intro h
      cases hl : alookup st.sessions tok with
      | none => simp [validate_session, hl] at h
      | some s0 =>
        simp only [validate_session, hl] at h
        by_cases hc : s0.is_active = true ∧ s0.user_id = uid
        · rw [if_pos hc] at h
          by_cases ht : now - s0.last_used < 86400
          · rw [if_pos ht] at h
            simp only [Option.some.injEq] at h
            subst h
            exact ⟨rfl, hc.1, hc.2, ht⟩
          · rw [if_neg ht] at h
            simp at h
        · rw [if_neg hc] at h
          simp at h
    · rintro ⟨hl, ha, hu, ht⟩
      simp only [validate_session, hl]
      rw [if_pos ⟨ha, hu⟩, if_pos ht]
  · intro s hl ha hu ht
    simp only [validate_session, hl]
    rw [if_pos ⟨ha, hu⟩, if_neg (by omega : ¬(now - s.last_used < 86400))]
    exact ⟨rfl, by simp [alookup_aset_self]⟩

/-- Witness for C3: a session last used at time 0, validated at 24h + 1s,
is rejected and marked inactive. -/
theorem claim_C3_witness :
    (validate_session c5State "t" 1 86401).1 = none ∧
    alookup (validate_session c5State "t" 1 86401).2.sessions "t"
      = some { c5Session with is_active := false } :=
  (claim_C3 c5State "t" 1 86401).2 c5Session (by decide) (by decide) (by decide) (by decide)

/-! ## Claim C4 -/

/-- Counterexample to claim C4: after a second `create_session` for user 1,
both of the user's records sit in the store with the active flag still true
— the old record is not marked inactive. -/
theorem claim_C4_counterexample :
    ((create_session (create_session emptyState 1 "alice" none "t1" 0).2
        1 "alice" none "t2" 5).2).sessions.map (fun p => (p.1, p.2.user_id, p.2.is_active))
      = [("t1", 1, true), ("t2", 1, true)] := by
  decide

/-- Claim C4 (amended): creating a session makes it the one reached by the
active-session lookup for its user, while every other token's record — in
particular a previously active one — is retained byte-for-byte unchanged
(its active flag included) and is merely no longer reachable via the
lookup. -/
theorem claim_C4 (st : SMState) (uid : Nat) (uname : String) (wd : Option String)
    (tok : String) (now : Int) :
    alookup (create_session st uid uname wd tok now).2.user_sessions uid = some tok
  ∧ (∀ t', t' ≠ tok →
      alookup (create_session st uid uname wd tok now).2.sessions t' = alookup st.sessions t')
  ∧ (∀ u', u' ≠ uid →
      alookup (create_session st uid uname wd tok now).2.user_sessions u'
        = alookup st.user_sessions u')
  ∧ (get_user_active_session (create_session st uid uname wd tok now).2 uid).1
      = some (create_session st uid uname wd tok now).1 := by
  refine ⟨?_, ?_, ?_, ?_⟩
  · simp [create_session, SMState.save, alookup_aset_self]
  · intro t' h
    simp [create_session, SMState.save, alookup_aset_ne _ _ _ _ h]
  · intro u' h
    simp [create_session, SMState.save, alookup_aset_ne _ _ _ _ h]
  · simp [create_session, SMState.save, get_user_active_session, alookup_aset_self]

/-- Witness for C4: user 7 creates a third session; the lookup now yields
it, the old records and other users' mappings are untouched. -/
theorem claim_C4_witness :
    alookup (create_session c10State 7 "u" none "t3" 2).2.user_sessions 7 = some "t3"
  ∧ alookup (create_session c10State 7 "u" none "t3" 2).2.sessions "t2"
      = alookup c10State.sessions "t2"
  ∧ alookup (create_session c10State 7 "u" none "t3" 2).2.user_sessions 8
      = alookup c10State.user_sessions 8
  ∧ (get_user_active_session (create_session c10State 7 "u" none "t3" 2).2 7).1
      = some (create_session c10State 7 "u" none "t3" 2).1 := by
  obtain ⟨h1, h2, h3, h4⟩ := claim_C4 c10State 7 "u" none "t3" 2
  exact ⟨h1, h2 "t2" (by decide), h3 8 (by decide), h4⟩

/-! ## Claim C5 -/

/-- Counterexample to claim C5: `validate_session` deactivates an expired
session in memory without rewriting storage, so afterwards the durable
record set differs from the in-memory one. -/
theorem claim_C5_counterexample :
    (validate_session c5State "t" 1 86401).2.sessions.map Prod.snd
        = [{ c5Session with is_active := false }]
  ∧ (validate_session c5State "t" 1 86401).2.stored = [c5Session]
  ∧ (validate_session c5State "t" 1 86401).2.stored
      ≠ (validate_session c5State "t" 1 86401).2.sessions.map Prod.snd := by
  exact ⟨by decide, by decide, by decide⟩

/-- Claim C5 (amended): `create_session`, a successful `update_session`, a
successful `end_session` and a nonempty `import_sessions` all leave the
durable record set equal to the in-memory one, but `validate_session` never
writes storage — its lazy deactivation leaves the durable copy as it was
until the next saving operation. -/
theorem claim_C5 (st : SMState) (uid : Nat) (uname : String) (wd : Option String)
    (tok : String) (now : Int) (recs : List Session) :
    ((create_session st uid uname wd tok now).2.stored
        = (create_session st uid uname wd tok now).2.sessions.map Prod.snd)
  ∧ (∀ s, alookup st.sessions tok = some s →
      (update_session st tok now).stored = (update_session st tok now).sessions.map Prod.snd)
  ∧ ((end_session st tok).1 = true →
      (end_session st tok).2.stored = (end_session st tok).2.sessions.map Prod.snd)
  ∧ ((validate_session st tok uid now).2.stored = st.stored)
  ∧ (0 < (import_sessions st recs).1 →
      (import_sessions st recs).2.stored = (import_sessions st recs).2.sessions.map Prod.snd) := by
  refine ⟨?_, ?_, ?_, ?_, ?_⟩
  · simp [create_session, SMState.save]
  · intro s h
    unfold update_session
    rw [h]
    simp [SMState.save]
  · intro h
    cases hl : alookup st.sessions tok with
    | none => simp [end_session, hl] at h
    | some s => simp [end_session, hl, SMState.save]
  · cases hl : alookup st.sessions tok with
    | none => simp [validate_session, hl]
    | some s =>
      simp only [validate_session, hl]
      by_cases hc : s.is_active = true ∧ s.user_id = uid
      · rw [if_pos hc]
        by_cases ht : now - s.last_used < 86400
        · rw [if_pos ht]
        · rw [if_neg ht]
      · rw [if_neg hc]
  · intro h
    unfold import_sessions at h ⊢
    by_cases hr : (import_go st recs).1 > 0
    · simp [hr, SMState.save]
    · simp only [if_neg hr] at h
      exact absurd h hr

/-- Witness for C5: concrete instances of the persisting branches and a
found token for the update case. -/
theorem claim_C5_witness :
    ((update_session c5State "t" 5).stored = (update_session c5State "t" 5).sessions.map Prod.snd)
  ∧ ((end_session c5State "t").2.stored = (end_session c5State "t").2.sessions.map Prod.snd)
  ∧ ((import_sessions emptyState [c5Session]).2.stored
        = (import_sessions emptyState [c5Session]).2.sessions.map Prod.snd) := by
  obtain ⟨_, h2, h3, _, _⟩ := claim_C5 c5State 1 "a" none "t" 5 [c5Session]
  obtain ⟨_, _, _, _, h5⟩ := claim_C5 emptyState 1 "a" none "t" 5 [c5Session]
  exact ⟨h2 c5Session (by decide), h3 (by decide), h5 (by decide)⟩

/-! ## Claim C8 -/

/-- Claim C8: startup cleanup deletes exactly the records that are inactive
and created before the 7-day cutoff and keeps all others; concretely, of an
8-day-old and a 6-day-old inactive session only the 6-day one survives
initialization. -/
theorem claim_C8 (records : List Session) (dwd : String) (now : Int) :
    (init_state records dwd now).sessions
      = (load_sessions records dwd).sessions.filter
          (fun p => !(!p.2.is_active && decide (p.2.created_at < now - 604800)))
  ∧ (init_state [c8rec8, c8rec6] "d" 0).sessions.map Prod.fst = ["t6"] := by
  refine ⟨?_, by decide⟩
  exact cleanup_sessions_of_nodup _ now (load_sessions_nodup records dwd)

/-! ## Claim C10 -/

/-- Claim C10: with user `u`'s mapping pointing at `t2`, ending the other
session `t1` of the same user marks `t1` inactive, returns true, removes the
mapping entirely — so the active-session lookup now yields `None` — while
the `t2` record is left in storage unchanged and still active. -/
theorem claim_C10 (st : SMState) (u : Nat) (t1 t2 : String) (s1 s2 : Session)
    (_hmap : alookup st.user_sessions u = some t2) (hne : t1 ≠ t2)
    (hs1 : alookup st.sessions t1 = some s1) (howner : s1.user_id = u)
    (hs2 : alookup st.sessions t2 = some s2) (hact2 : s2.is_active = true) :
    (end_session st t1).1 = true
  ∧ alookup (end_session st t1).2.sessions t1 = some { s1 with is_active := false }
  ∧ alookup (end_session st t1).2.sessions t2 = some s2
  ∧ ((alookup (end_session st t1).2.sessions t2).map Session.is_active = some true)
  ∧ alookup (end_session st t1).2.user_sessions u = none
  ∧ (get_user_active_session (end_session st t1).2 u).1 = none := by
  have hne2 : t2 ≠ t1 := fun hh => hne hh.symm
  simp only [end_session, hs1]
  have hu : alookup (aerase st.user_sessions s1.user_id) u = none := by
    rw [howner]
    exact alookup_aerase_self st.user_sessions u
  refine ⟨by trivial, ?_, ?_, ?_, ?_, ?_⟩
  · simp [SMState.save, alookup_aset_self]
  · simp [SMState.save, alookup_aset_ne _ _ _ _ hne2, hs2]
  · simp [SMState.save, alookup_aset_ne _ _ _ _ hne2, hs2, hact2]
  · simpa [SMState.save] using hu
  · simp [get_user_active_session, SMState.save, hu]

/-! ## Claim C7 -/

/-- Claim C7: the `owner/repo`, trailing-`.git` and trailing-slash input
forms all normalize to `https://github.com/owner/repo`, and `"not a url"`
is rejected with the invalid-URL error. -/
theorem claim_C7 :
    validate_github_url "owner/repo" = (true, "https://github.com/owner/repo")
  ∧ validate_github_url "https://github.com/owner/repo.git"
      = (true, "https://github.com/owner/repo")
  ∧ validate_github_url "https://github.com/owner/repo/"
      = (true, "https://github.com/owner/repo")
  ∧ (validate_github_url "not a url").1 = false
  ∧ validate_github_url "not a url"
      = (false, "Invalid GitHub URL format. Expected: https://github.com/owner/repo") := by
  exact ⟨by decide, by decide, by decide, by decide, by decide⟩

/-! ## Claim C1 -/

/-- Counterexample to claim C1: `list_files_in_repo` performs no containment
check, so a `..`-laden relative path whose physical resolution lands on an
existing directory outside the scoped mirror root — here the root-level
`etc` — has that directory's entries returned rather than an empty list. -/
theorem claim_C1_counterexample :
    list_files_in_repo c1fs c1repos 1 "../../../../etc"
        = some [⟨"passwd", "../../../../etc/passwd", false, 100, some ""⟩]
  ∧ resolveComps (targetComps ["repos", "1", "o", "r"] "../../../../etc") = ["etc"]
  ∧ list_files_in_repo c1fs c1repos 1 "../../../../etc" ≠ some [] := by
  exact ⟨by decide, by decide, by decide⟩

/-- Claim C1 (amended): `list_files_in_repo` returns `None` when the user
has no active repository and an empty list when the resolved target does not
exist or is not a directory, but it checks nothing about containment: a
relative path whose `..` components physically resolve to an existing
directory outside the scoped root yields that directory's entries. -/
theorem claim_C1 (fs : FSNode) (ur : List (Nat × List String)) (uid : Nat) (rel : String) :
    (alookup ur uid = none → list_files_in_repo fs ur uid rel = none)
  ∧ (∀ rp, alookup ur uid = some rp →
      findNode fs (resolveComps (targetComps rp rel)) = none →
      list_files_in_repo fs ur uid rel = some [])
  ∧ (∀ rp sz, alookup ur uid = some rp →
      findNode fs (resolveComps (targetComps rp rel)) = some (FSNode.file sz) →
      list_files_in_repo fs ur uid rel = some []) := by
  refine ⟨?_, ?_, ?_⟩
  · intro h
    simp [list_files_in_repo, h]
  · intro rp h hn
    simp [list_files_in_repo, h, hn]
  · intro rp sz h hn
    simp [list_files_in_repo, h, hn]

/-- Witness for C1: with user 2 absent, the lookup yields `None`; for user 1
a missing directory and a file target both yield the empty list. -/
theorem claim_C1_witness :
    list_files_in_repo c1fs c1repos 2 "" = none
  ∧ list_files_in_repo c1fs c1repos 1 "../../etc" = some []
  ∧ list_files_in_repo c1fs c1repos 1 "f.txt" = some [] := by
  obtain ⟨h1, h2, h3⟩ := claim_C1 c1fs c1repos 2 ""
  obtain ⟨g1, g2, g3⟩ := claim_C1 c1fs c1repos 1 "../../etc"
  obtain ⟨k1, k2, k3⟩ := claim_C1 c1fs c1repos 1 "f.txt"
  exact ⟨h1 (by decide), g2 ["repos", "1", "o", "r"] (by decide) rfl,
    k3 ["repos", "1", "o", "r"] 3 (by decide) rfl⟩

/-! ## Claim C6 -/

/-- Counterexample to claim C6: when the scoped path exists and `git pull
origin main` times out, `clone_or_update_repo` gives up with an update error
even though the fallback `git pull origin master` — which here would have
succeeded — was never attempted, so the error does not come only after both
pulls fail. -/
theorem claim_C6_counterexample :
    clone_or_update_repo c6envTimeout 1 "o/r"
        = (.err "update_error" "Failed to update repository: Update operation timed out (30s)",
           ["git pull origin main"])
  ∧ "git pull origin master" ∉ (clone_or_update_repo c6envTimeout 1 "o/r").2
  ∧ "git clone" ∉ (clone_or_update_repo c6envTimeout 1 "o/r").2
  ∧ c6envTimeout.pull_master = .exit 0 := by
  exact ⟨by decide, by decide, by decide, by decide⟩

/-- Claim C6 (amended): with a valid URL and git available, an existing
scoped path always takes the update path — `git clone` is never issued and
the first command is the pull of `main` — succeeding with action `updated`
on a zero exit of the `main` pull or of the `master` retry after a non-zero
`main` exit, and failing with an update error after two non-zero exits or
immediately when a pull times out; an absent path issues exactly the clone,
with action `cloned` on zero exit and a clone error otherwise. -/
theorem claim_C6 (env : GitEnv) (uid : Nat) (url norm owner repo : String)
    (hv : validate_github_url url = (true, norm))
    (hm : matchFullUrl norm = some (owner, repo))
    (hg : env.git_available = true) :
    (env.path_exists = true →
        "git clone" ∉ (clone_or_update_repo env uid url).2
      ∧ (clone_or_update_repo env uid url).2.head? = some "git pull origin main"
      ∧ (env.pull_main = .exit 0 →
          clone_or_update_repo env uid url
            = (.ok "updated" owner repo norm (userRepoDirStr uid owner repo),
               ["git pull origin main"]))
      ∧ (∀ c, env.pull_main = .exit (c + 1) → env.pull_master = .exit 0 →
          clone_or_update_repo env uid url
            = (.ok "updated" owner repo norm (userRepoDirStr uid owner repo),
               ["git pull origin main", "git pull origin master"]))
      ∧ (∀ c c', env.pull_main = .exit (c + 1) → env.pull_master = .exit (c' + 1) →
          clone_or_update_repo env uid url
            = (.err "update_error" ("Failed to update repository: " ++ env.pull_master_err),
               ["git pull origin main", "git pull origin master"]))
      ∧ (env.pull_main = .timeout →
          clone_or_update_repo env uid url
            = (.err "update_error" "Failed to update repository: Update operation timed out (30s)",
               ["git pull origin main"]))
      ∧ (∀ c, env.pull_main = .exit (c + 1) → env.pull_master = .timeout →
          clone_or_update_repo env uid url
            = (.err "update_error" "Failed to update repository: Update operation timed out (30s)",
               ["git pull origin main", "git pull origin master"])))
  ∧ (env.path_exists = false →
        (clone_or_update_repo env uid url).2 = ["git clone"]
      ∧ (env.clone_result = .exit 0 →
          clone_or_update_repo env uid url
            = (.ok "cloned" owner repo norm (userRepoDirStr uid owner repo), ["git clone"]))
      ∧ (∀ c, env.clone_result = .exit (c + 1) →
          clone_or_update_repo env uid url
            = (.err "clone_error" ("Failed to clone repository: " ++ env.clone_err),
               ["git clone"]))
      ∧ (env.clone_result = .timeout →
          clone_or_update_repo env uid url
            = (.err "clone_error" "Failed to clone repository: Clone operation timed out (60s)",
               ["git clone"]))) := by
  constructor
  · intro hp
    have hbase : ∀ r : (Bool × String) × List String, update_repo env = r →
        clone_or_update_repo env uid url
          = (match r with
             | ((true, _), tr) =>
               (.ok "updated" owner repo norm (userRepoDirStr uid owner repo), tr)
             | ((false, msg), tr) =>
               (.err "update_error" ("Failed to update repository: " ++ msg), tr)) := by
      intro r hr
      simp only [clone_or_update_repo, hv, hm, hg, hp, Bool.not_true, Bool.false_eq_true,
        if_false, if_true, hr]
    refine ⟨?_, ?_, ?_, ?_, ?_, ?_, ?_⟩
    · cases hm1 : env.pull_main with
      | timeout => simp [hbase _ rfl, update_repo, hm1]
      | exit c =>
        cases c with
        | zero => simp [hbase _ rfl, update_repo, hm1]
        | succ c =>
          cases hm2 : env.pull_master with
          | timeout => simp [hbase _ rfl, update_repo, hm1, hm2]
          | exit c' =>
            cases c' with
            | zero => simp [hbase _ rfl, update_repo, hm1, hm2]
            | succ c' => simp [hbase _ rfl, update_repo, hm1, hm2]
    · cases hm1 : env.pull_main with
      | timeout => simp [hbase _ rfl, update_repo, hm1]
      | exit c =>
        cases c with
        | zero => simp [hbase _ rfl, update_repo, hm1]
        | succ c =>
          cases hm2 : env.pull_master with
          | timeout => simp [hbase _ rfl, update_repo, hm1, hm2]
          | exit c' =>
            cases c' with
            | zero => simp [hbase _ rfl, update_repo, hm1, hm2]
            | succ c' => simp [hbase _ rfl, update_repo, hm1, hm2]
    · intro hm1
      simp [hbase _ rfl, update_repo, hm1]
    · intro c hm1 hm2
      simp [hbase _ rfl, update_repo, hm1, hm2]
    · intro c c' hm1 hm2
      simp [hbase _ rfl, update_repo, hm1, hm2]
    · intro hm1
      simp [hbase _ rfl, update_repo, hm1]
    · intro c hm1 hm2
      simp [hbase _ rfl, update_repo, hm1, hm2]
  · intro hp
    have hbase : ∀ r : (Bool × String) × List String, clone_repo env = r →
        clone_or_update_repo env uid url
          = (match r with
             | ((true, _), tr) =>
               (.ok "cloned" owner repo norm (userRepoDirStr uid owner repo), tr)
             | ((false, msg), tr) =>
               (.err "clone_error" ("Failed to clone repository: " ++ msg), tr)) := by
      intro r hr
      simp only [clone_or_update_repo, hv, hm, hg, hp, Bool.not_true, Bool.false_eq_true,
        if_false, if_true, hr]
    refine ⟨?_, ?_, ?_, ?_⟩
    · cases hc : env.clone_result with
      | timeout => simp [hbase _ rfl, clone_repo, hc]
      | exit c =>
        cases c with
        | zero => simp [hbase _ rfl, clone_repo, hc]
        | succ c => simp [hbase _ rfl, clone_repo, hc]
    · intro hc
      simp [hbase _ rfl, clone_repo, hc]
    · intro c hc
      simp [hbase _ rfl, clone_repo, hc]
    · intro hc
      simp [hbase _ rfl, clone_repo, hc]

/-- Witness for C6: a concrete environment where `main` exits non-zero and
`master` succeeds yields action `updated` without a clone, and a concrete
absent-path environment yields action `cloned`. -/
theorem claim_C6_witness :
    clone_or_update_repo ⟨true, true, .exit 1, "", .exit 0, "", .exit 0, ""⟩ 1 "o/r"
        = (.ok "updated" "o" "r" "https://github.com/o/r" (userRepoDirStr 1 "o" "r"),
           ["git pull origin main", "git pull origin master"])
  ∧ clone_or_update_repo ⟨true, false, .exit 0, "", .exit 0, "", .exit 0, ""⟩ 1 "o/r"
        = (.ok "cloned" "o" "r" "https://github.com/o/r" (userRepoDirStr 1 "o" "r"),
           ["git clone"]) := by
  constructor
  · exact (((claim_C6 ⟨true, true, .exit 1, "", .exit 0, "", .exit 0, ""⟩ 1 "o/r"
      "https://github.com/o/r" "o" "r" (by decide) (by decide) rfl).1 rfl).2.2.2.1) 0 rfl rfl
  · exact (((claim_C6 ⟨true, false, .exit 0, "", .exit 0, "", .exit 0, ""⟩ 1 "o/r"
      "https://github.com/o/r" "o" "r" (by decide) (by decide) rfl).2 rfl).2.1) rfl

/-! ## Diff-engine lemmas: identical inputs produce an empty diff -/

theorem commonPrefixLen_self (xs : List String) : commonPrefixLen xs xs = xs.length := by
  induction xs with
  | nil => rfl
  | cons x xs ih => simp [commonPrefixLen, ih]

theorem commonPrefixLen_le_left (xs ys : List String) : commonPrefixLen xs ys ≤ xs.length := by
  induction xs generalizing ys with
  | nil => simp [commonPrefixLen]
  | cons x xs ih =>
    cases ys with
    | nil => simp [commonPrefixLen]
    | cons y ys =>
      by_cases h : x = y
      · simpa [commonPrefixLen, h] using ih ys
      · simp [commonPrefixLen, h]

theorem matchLen_le (a b : List String) (ahi bhi i j : Nat) : matchLen a b ahi bhi i j ≤ ahi := by
  have h := commonPrefixLen_le_left ((a.take ahi).drop i) ((b.take bhi).drop j)
  have h2 : ((a.take ahi).drop i).length ≤ ahi := by
    rw [List.length_drop, List.length_take]
    omega
  exact le_trans h h2

theorem matchLen_self_zero (a : List String) :
    matchLen a a a.length a.length 0 0 = a.length := by
  simp only [matchLen, List.take_length, List.drop_zero]
  exact commonPrefixLen_self a

theorem foldl_flmStep_const (a b : List String) (ahi bhi : Nat) (l : List (Nat × Nat))
    (best : Nat × Nat × Nat) (h : ∀ ij ∈ l, matchLen a b ahi bhi ij.1 ij.2 ≤ best.2.2) :
    l.foldl (flmStep a b ahi bhi) best = best := by
  induction l with
  | nil => rfl
  | cons ij rest ih =>
    rw [List.foldl_cons]
    have h1 : flmStep a b ahi bhi best ij = best := by
      simp only [flmStep]
      rw [if_neg (Nat.not_lt.mpr (h ij (List.mem_cons_self ij rest)))]
    rw [h1]
    exact ih (fun x hx => h x (List.mem_cons_of_mem ij hx))

theorem findLongestMatch_self (x : String) (xs : List String) :
    findLongestMatch (x :: xs) (x :: xs) 0 (x :: xs).length 0 (x :: xs).length
      = (0, 0, (x :: xs).length) := by
  have hstep : flmStep (x :: xs) (x :: xs) (x :: xs).length (x :: xs).length
      ((0, 0, 0) : Nat × Nat × Nat) ((0, 0) : Nat × Nat) = (0, 0, (x :: xs).length) := by
    simp only [flmStep, matchLen_self_zero]
    rw [if_pos (by simp)]
  have hrange : List.range' 0 (x :: xs).length = 0 :: List.range' 1 xs.length := by
    rw [List.length_cons, List.range'_succ]
  unfold findLongestMatch
  rw [Nat.sub_zero, hrange, List.flatMap_cons, List.map_cons, List.cons_append,
    List.foldl_cons, hstep]
  exact foldl_flmStep_const _ _ _ _ _ _
    (fun ij _ => matchLen_le (x :: xs) (x :: xs) (x :: xs).length (x :: xs).length ij.1 ij.2)

theorem matchingBlocksAux_self (x : String) (xs : List String) (fuel : Nat) :
    matchingBlocksAux (x :: xs) (x :: xs) (fuel + 1) 0 (x :: xs).length 0 (x :: xs).length
      = [(0, 0, (x :: xs).length)] := by
  simp only [matchingBlocksAux, findLongestMatch_self]
  rw [if_neg (by simp : ¬((0, 0, (x :: xs).length) : Nat × Nat × Nat).2.2 = 0)]
  simp

theorem get_matching_blocks_self_cons (x : String) (xs : List String) :
    get_matching_blocks (x :: xs) (x :: xs)
      = [(0, 0, (x :: xs).length), ((x :: xs).length, (x :: xs).length, 0)] := by
  simp only [get_matching_blocks, matchingBlocksAux_self, List.foldl_cons, List.foldl_nil]
  simp [mergeStep]

theorem get_opcodes_nil : get_opcodes ([] : List String) ([] : List String) = [] := by
  rfl

theorem get_opcodes_self_cons (x : String) (xs : List String) :
    get_opcodes (x :: xs) (x :: xs) = [⟨.equal, 0, (x :: xs).length, 0, (x :: xs).length⟩] := by
  simp only [get_opcodes, get_matching_blocks_self_cons, List.foldl_cons, List.foldl_nil]
  simp [opcodeStep]

theorem grouped_opcodes_single_equal (a b : List String) (n L : Nat)
    (h : (if get_opcodes a b = [] then [⟨Tag.equal, 0, 1, 0, 1⟩] else get_opcodes a b)
         = [⟨Tag.equal, 0, L, 0, L⟩]) :
    get_grouped_opcodes a b n = [] := by
  have h1 : trimHead n [(⟨Tag.equal, 0, L, 0, L⟩ : Opcode)]
      = [⟨Tag.equal, max 0 (L - n), L, max 0 (L - n), L⟩] := by
    simp [trimHead]
  have h2 : trimLast n [(⟨Tag.equal, max 0 (L - n), L, max 0 (L - n), L⟩ : Opcode)]
      = [⟨Tag.equal, max 0 (L - n), min L (max 0 (L - n) + n), max 0 (L - n),
          min L (max 0 (L - n) + n)⟩] := by
    simp [trimLast]
  have hcond : ¬(n + n < min L (max 0 (L - n) + n) - max 0 (L - n)) := by omega
  have h3 : List.foldl (groupStep n) (([], []) : List (List Opcode) × List Opcode)
      [(⟨Tag.equal, max 0 (L - n), min L (max 0 (L - n) + n), max 0 (L - n),
          min L (max 0 (L - n) + n)⟩ : Opcode)]
      = ([], [⟨Tag.equal, max 0 (L - n), min L (max 0 (L - n) + n), max 0 (L - n),
          min L (max 0 (L - n) + n)⟩]) := by
    rw [List.foldl_cons, List.foldl_nil]
    simp only [groupStep]
    rw [if_neg (fun hcon => hcond hcon.2)]
    simp
  simp only [get_grouped_opcodes, h, h1, h2, h3]
  rw [if_neg (fun hcon => hcon.2 ⟨rfl, rfl⟩)]

theorem get_grouped_opcodes_self (a : List String) (n : Nat) :
    get_grouped_opcodes a a n = [] := by
  cases a with
  | nil =>
    exact grouped_opcodes_single_equal [] [] n 1 (by rw [get_opcodes_nil]; simp)
  | cons x xs =>
    refine grouped_opcodes_single_equal (x :: xs) (x :: xs) n (x :: xs).length ?_
    rw [get_opcodes_self_cons]
    simp

theorem unified_diff_self (a : List String) (f t : String) (n : Nat) :
    unified_diff a a f t n = [] := by
  unfold unified_diff
  rw [get_grouped_opcodes_self]

/-! ## Claim C9 -/

/-- Claim C9: `create_unified_diff` returns the "no changes" sentinel — not
an empty or nonempty diff — whenever the two inputs split into identical
line lists, and on `"a\n"` versus `"a\nb\n"` renders a diff whose only
added-line marker is the one for line `b`. -/
theorem claim_C9 :
    (∀ old_content new_content old_file new_file n,
        splitLinesKeepEnds old_content = splitLinesKeepEnds new_content →
        create_unified_diff old_content new_content old_file new_file n = noChangesSentinel)
  ∧ create_unified_diff "a\n" "a\nb\n" "old" "new" 3
      = "```diff\n**--- old**\n**+++ new**\n*@@ -1 +1,2 @@*\n  a\n\n+b\n\n```"
  ∧ addedLines (create_unified_diff "a\n" "a\nb\n" "old" "new" 3) = ["+b"] := by
  refine ⟨?_, by decide, by decide⟩
  intro old_content new_content old_file new_file n h
  simp only [create_unified_diff]
  rw [← h, unified_diff_self]
  simp

/-- Witness for C9: two identical two-line texts produce the sentinel. -/
theorem claim_C9_witness :
    create_unified_diff "a\nb\n" "a\nb\n" "old" "new" 3 = noChangesSentinel :=
  claim_C9.1 "a\nb\n" "a\nb\n" "old" "new" 3 rfl

/-- Witness for C10 on the concrete two-session store of user 7. -/
theorem claim_C10_witness :
    (end_session c10State "t1").1 = true
  ∧ alookup (end_session c10State "t1").2.sessions "t1" = some { c10s1 with is_active := false }
  ∧ alookup (end_session c10State "t1").2.sessions "t2" = some c10s2
  ∧ ((alookup (end_session c10State "t1").2.sessions "t2").map Session.is_active = some true)
  ∧ alookup (end_session c10State "t1").2.user_sessions 7 = none
  ∧ (get_user_active_session (end_session c10State "t1").2 7).1 = none :=
  claim_C10 c10State 7 "t1" "t2" c10s1 c10s2
    (by decide) (by decide) (by decide) (by decide) (by decide) (by decide)

end TgBot
